import Mathlib

/-!
Verification development for the city-services registry (src/app.py).

The Python source is shallowly embedded: the in-memory dict `services`
becomes an insertion-ordered association list, the Flask handlers become
pure functions from explicit state (plus the external inputs they consume:
the generated uuid randomness, the wall-clock timestamp, the request body,
and the per-subscriber send outcome) to a typed response, the new state and
the list of events handed to `broadcast`.  `compute_etag` is embedded in
full: the canonical JSON serialization (sorted keys, compact separators,
ensure-ascii escaping) followed by a bit-accurate MD5 over the UTF-8 bytes.
-/

namespace CityServices

/-- Lowercase hexadecimal digit, as produced by Python's json and hashlib. -/
def hexDigitChar (n : Nat) : Char :=
  if n < 10 then Char.ofNat (48 + n) else Char.ofNat (87 + n)

/-- Four fixed hex digits, most significant first (the form `\uXXXX` uses). -/
def toHex4 (n : Nat) : List Char :=
  [hexDigitChar (n / 4096 % 16), hexDigitChar (n / 256 % 16),
   hexDigitChar (n / 16 % 16), hexDigitChar (n % 16)]

/-- Escaping of one character exactly as `json.dumps` (default
`ensure_ascii=True`) renders it inside a JSON string: `"` and `\` get a
backslash, the named control escapes are used for 8/9/10/12/13, every other
character outside the printable-ASCII range 0x20..0x7E becomes `\uXXXX`
(a surrogate pair beyond the BMP). -/
def escapeChar (c : Char) : List Char :=
  let n := c.toNat
  if c = '"' then ['\\', '"']
  else if c = '\\' then ['\\', '\\']
  else if n = 8 then ['\\', 'b']
  else if n = 9 then ['\\', 't']
  else if n = 10 then ['\\', 'n']
  else if n = 12 then ['\\', 'f']
  else if n = 13 then ['\\', 'r']
  else if n < 32 then '\\' :: 'u' :: toHex4 n
  else if n < 127 then [c]
  else if n < 65536 then '\\' :: 'u' :: toHex4 n
  else
    ('\\' :: 'u' :: toHex4 (55296 + (n - 65536) / 1024)) ++
      ('\\' :: 'u' :: toHex4 (56320 + (n - 65536) % 1024))

/-- A JSON string literal: quote, escaped characters, quote. -/
def jsonString (s : String) : List Char :=
  '"' :: s.data.foldr (fun c acc => escapeChar c ++ acc) ['"']

/-- UTF-8 encoding of one Unicode code point as byte values. -/
def utf8Char (c : Char) : List Nat :=
  let n := c.toNat
  if n < 128 then [n]
  else if n < 2048 then [192 + n / 64, 128 + n % 64]
  else if n < 65536 then [224 + n / 4096, 128 + n / 64 % 64, 128 + n % 64]
  else [240 + n / 262144, 128 + n / 4096 % 64, 128 + n / 64 % 64, 128 + n % 64]

/-- UTF-8 encoding of a string (`str.encode("utf-8")`) as byte values. -/
def utf8Bytes (s : String) : List Nat :=
  s.data.foldr (fun c acc => utf8Char c ++ acc) []

/-! ## MD5 (hashlib.md5), over byte lists, mod-2^32 arithmetic on Nat -/

def w32 : Nat := 4294967296

def mask32 : Nat := 4294967295

/-- 32-bit left rotation. -/
def rotl32 (x c : Nat) : Nat := ((x <<< c) % w32) ||| (x >>> (32 - c))

/-- The 64 MD5 sine-derived constants. -/
def md5K : List Nat :=
  [3614090360, 3905402710, 606105819, 3250441966, 4118548399, 1200080426,
   2821735955, 4249261313, 1770035416, 2336552879, 4294925233, 2304563134,
   1804603682, 4254626195, 2792965006, 1236535329, 4129170786, 3225465664,
   643717713, 3921069994, 3593408605, 38016083, 3634488961, 3889429448,
   568446438, 3275163606, 4107603335, 1163531501, 2850285829, 4243563512,
   1735328473, 2368359562, 4294588738, 2272392833, 1839030562, 4259657740,
   2763975236, 1272893353, 4139469664, 3200236656, 681279174, 3936430074,
   3572445317, 76029189, 3654602809, 3873151461, 530742520, 3299628645,
   4096336452, 1126891415, 2878612391, 4237533241, 1700485571, 2399980690,
   4293915773, 2240044497, 1873313359, 4264355552, 2734768916, 1309151649,
   4149444226, 3174756917, 718787259, 3951481745]

/-- The 64 MD5 per-round left-rotation amounts. -/
def md5S : List Nat :=
  [7, 12, 17, 22, 7, 12, 17, 22, 7, 12, 17, 22, 7, 12, 17, 22,
   5, 9, 14, 20, 5, 9, 14, 20, 5, 9, 14, 20, 5, 9, 14, 20,
   4, 11, 16, 23, 4, 11, 16, 23, 4, 11, 16, 23, 4, 11, 16, 23,
   6, 10, 15, 21, 6, 10, 15, 21, 6, 10, 15, 21, 6, 10, 15, 21]

/-- Little-endian 32-bit word assembled from four bytes of a block. -/
def md5Word (block : List Nat) (j : Nat) : Nat :=
  block.getD (4 * j) 0 + 256 * block.getD (4 * j + 1) 0 +
    65536 * block.getD (4 * j + 2) 0 + 16777216 * block.getD (4 * j + 3) 0

/-- One of the 64 MD5 operations, acting on the (a, b, c, d) state. -/
def md5Step (M : Nat → Nat) (st : Nat × Nat × Nat × Nat) (i : Nat) :
    Nat × Nat × Nat × Nat :=
  let a := st.1
  let b := st.2.1
  let c := st.2.2.1
  let d := st.2.2.2
  let fg : Nat × Nat :=
    if i < 16 then ((b &&& c) ||| ((b ^^^ mask32) &&& d), i)
    else if i < 32 then ((d &&& b) ||| ((d ^^^ mask32) &&& c), (5 * i + 1) % 16)
    else if i < 48 then (b ^^^ c ^^^ d, (3 * i + 5) % 16)
    else (c ^^^ (b ||| (d ^^^ mask32)), (7 * i) % 16)
  let tmp := (a + fg.1 + md5K.getD i 0 + M fg.2) % w32
  (d, (b + rotl32 tmp (md5S.getD i 0)) % w32, b, c)

/-- Process one 64-byte block, adding the mixed state back in. -/
def md5Block (st : Nat × Nat × Nat × Nat) (block : List Nat) :
    Nat × Nat × Nat × Nat :=
  let r := (List.range 64).foldl (md5Step (md5Word block)) st
  ((st.1 + r.1) % w32, (st.2.1 + r.2.1) % w32,
   (st.2.2.1 + r.2.2.1) % w32, (st.2.2.2 + r.2.2.2) % w32)

/-- MD5 padding: 0x80, zeros to 56 mod 64, then the bit length as eight
little-endian bytes. -/
def md5Pad (msg : List Nat) : List Nat :=
  let len := msg.length
  let zeros := (56 + 64 - (len + 1) % 64) % 64
  let bitLen := 8 * len % (w32 * w32)
  msg ++ 128 :: List.replicate zeros 0 ++
    [bitLen % 256, bitLen / 256 % 256, bitLen / 65536 % 256,
     bitLen / 16777216 % 256, bitLen / 4294967296 % 256,
     bitLen / 1099511627776 % 256, bitLen / 281474976710656 % 256,
     bitLen / 72057594037927936 % 256]

/-- Split a byte list into 64-byte chunks. -/
def chunks64 (l : List Nat) : List (List Nat) :=
  if l = [] then [] else l.take 64 :: chunks64 (l.drop 64)
termination_by l.length
decreasing_by
  simp only [List.length_drop]
  have : l.length ≠ 0 := fun h => by simp_all [List.length_eq_zero]
  omega

/-- Four little-endian bytes of a 32-bit word. -/
def toLE4 (x : Nat) : List Nat :=
  [x % 256, x / 256 % 256, x / 65536 % 256, x / 16777216 % 256]

/-- The 16-byte MD5 digest of a byte list. -/
def md5Bytes (msg : List Nat) : List Nat :=
  let st := (chunks64 (md5Pad msg)).foldl md5Block
    (1732584193, 4023233417, 2562383102, 271733878)
  toLE4 st.1 ++ toLE4 st.2.1 ++ toLE4 st.2.2.1 ++ toLE4 st.2.2.2

/-- Two lowercase hex digits per byte (`hexdigest`). -/
def hexOfBytes : List Nat → List Char
  | [] => []
  | b :: bs => hexDigitChar (b / 16 % 16) :: hexDigitChar (b % 16) :: hexOfBytes bs

/-- The lowercase 32-character hex digest, `hashlib.md5(raw).hexdigest()`. -/
def md5Hex (msg : List Nat) : String := String.mk (hexOfBytes (md5Bytes msg))

/-! ## Entity model and canonical serialization -/

/-- A stored service record: the dict built by `create_service`, whose keys
are always exactly id, type, name, address, hours, phone, updatedAt. -/
structure Service where
  id : String
  type : String
  name : String
  address : String
  hours : String
  phone : String
  updatedAt : String
deriving DecidableEq, Repr

/-- One `"key":"value"` member of a JSON object. -/
def jsonPair (k v : String) : List Char := jsonString k ++ ':' :: jsonString v

/-- Characters of `json.dumps(service, sort_keys=True, separators=(",", ":"))`:
the seven keys in sorted order — address, hours, id, name, phone, type,
updatedAt — joined by bare commas, wrapped in braces, no whitespace. -/
def serializeService (s : Service) : List Char :=
  Char.ofNat 123 ::
    jsonPair "address" s.address ++ ',' ::
    jsonPair "hours" s.hours ++ ',' ::
    jsonPair "id" s.id ++ ',' ::
    jsonPair "name" s.name ++ ',' ::
    jsonPair "phone" s.phone ++ ',' ::
    jsonPair "type" s.type ++ ',' ::
    jsonPair "updatedAt" s.updatedAt ++ [Char.ofNat 125]

/-- Embedding of `compute_etag`: MD5 hexdigest of the UTF-8 bytes of the
canonical sorted-key compact serialization. -/
def compute_etag (s : Service) : String :=
  md5Hex (utf8Bytes (String.mk (serializeService s)))

/-! ## uuid.uuid4 string form -/

/-- Fixed-width lowercase hex rendering (leading zeros kept). -/
def toHexFixed : Nat → Nat → List Char
  | 0, _ => []
  | d + 1, n => toHexFixed d (n / 16) ++ [hexDigitChar (n % 16)]

/-- The 128-bit integer of a version-4 UUID built from random integer `r`:
the variant bits (10 at bits 63..62) and version bits (0100 at bits
79..76) are forced, the rest is `r`. -/
def uuid4Int (r : Nat) : Nat :=
  let x := r % 2 ^ 128
  let y := (x &&& ((2 ^ 128 - 1) ^^^ (49152 <<< 48))) ||| (32768 <<< 48)
  (y &&& ((2 ^ 128 - 1) ^^^ (61440 <<< 64))) ||| (16384 <<< 64)

/-- Embedding of `str(uuid.uuid4())`, with the 16 random bytes supplied as
the integer `r`: 8-4-4-4-12 lowercase hex groups. -/
def uuid4String (r : Nat) : String :=
  let x := uuid4Int r
  String.mk (toHexFixed 8 (x / 2 ^ 96) ++ '-' ::
    toHexFixed 4 (x / 2 ^ 80 % 2 ^ 16) ++ '-' ::
    toHexFixed 4 (x / 2 ^ 64 % 2 ^ 16) ++ '-' ::
    toHexFixed 4 (x / 2 ^ 48 % 2 ^ 16) ++ '-' ::
    toHexFixed 12 (x % 2 ^ 48))

/-! ## The registry state: Python dict as insertion-ordered assoc list

`services[sid] = v` keeps an existing key at its position and appends a new
key at the end; `del services[sid]` removes the entry; `services.get(sid)`
is positional lookup.  The embeddings below realize exactly that on
duplicate-free association lists (all states built by the handlers are
duplicate-free since insertion goes through `dictSet`). -/

abbrev RegState := List (String × Service)

/-- Lookup `services.get(sid)`. -/
def dictGet : RegState → String → Option Service
  | [], _ => none
  | p :: rest, k => if p.1 == k then some p.2 else dictGet rest k

/-- Store `services[sid] = v`: update in place, or append a fresh key. -/
def dictSet : RegState → String → Service → RegState
  | [], k, v => [(k, v)]
  | p :: rest, k, v => if p.1 == k then (k, v) :: rest else p :: dictSet rest k v

/-- Remove `del services[sid]`. -/
def dictDel : RegState → String → RegState
  | [], _ => []
  | p :: rest, k => if p.1 == k then dictDel rest k else p :: dictDel rest k

/-- Membership test `sid in services`. -/
def hasKey (st : RegState) (k : String) : Bool := (dictGet st k).isSome

/-! ## Request bodies and Python truthiness -/

/-- A parsed JSON request body restricted to the five keys the handlers
read: `none` means the key is absent, `some v` that it maps to string `v`. -/
structure ServiceInput where
  type? : Option String
  name? : Option String
  address? : Option String
  hours? : Option String
  phone? : Option String
deriving DecidableEq, Repr

/-- The dictionary view `data.get(k)` for the keys the handlers use. -/
def ServiceInput.get (d : ServiceInput) : String → Option String
  | "type" => d.type?
  | "name" => d.name?
  | "address" => d.address?
  | "hours" => d.hours?
  | "phone" => d.phone?
  | _ => none

/-- Python falsiness of `data.get(k)` for string-valued JSON: absent (None)
or the empty string. -/
def falsy : Option String → Bool
  | none => true
  | some s => s == ""

/-- The list `["type", "name", "address"]` of required keys. -/
def requiredKeys : List String := ["type", "name", "address"]

/-- The comprehension `[k for k in required if not data.get(k)]`. -/
def requiredMissing (d : ServiceInput) : List String :=
  requiredKeys.filter (fun k => falsy (d.get k))

/-! ## Subscriber fan-out -/

/-- A WebSocket client handle; identity is all the registry code uses. -/
abbrev Client := Nat

/-- An event dict handed to `broadcast`:
`\x7b"event": kind, "service": service\x7d`. -/
structure Event where
  event : String
  service : Service
deriving DecidableEq, Repr

/-- Outcome of one `broadcast` call.  `attempted` is the snapshot
`list(ws_clients)` the loop iterates; `delivered` collects the clients
whose `ws.send` did not raise; `clients` is `ws_clients` after every dead
handle was discarded. -/
structure BroadcastResult where
  attempted : List Client
  delivered : List Client
  clients : List Client
deriving DecidableEq, Repr

/-- Embedding of `broadcast`: iterate a snapshot of the registered set,
attempt delivery to each, collect the handles whose send failed (`ok ws =
false` stands for `ws.send` raising), then discard exactly those.  The
send outcome function `ok` is the external transport behavior. -/
def broadcast (ok : Client → Bool) (cs : List Client) : BroadcastResult :=
  let snapshot := cs
  let dead := snapshot.filter (fun ws => ok ws == false)
  { attempted := snapshot
    delivered := snapshot.filter (fun ws => ok ws)
    clients := cs.filter (fun ws => !(dead.contains ws)) }

/-! ## Handlers (the /api/v1 routes), as pure state transformers -/

/-- The whole mutable module state: the `services` dict and `ws_clients`. -/
structure AppState where
  services : RegState
  wsClients : List Client
deriving DecidableEq

/-- Response of `create_service`: 400 with the missing-field list, or 201
with the body and the `Location` header value. -/
inductive CreateResp where
  | missingFields (fields : List String)
  | created (s : Service) (location : String)
deriving DecidableEq, Repr

/-- What a call to `create_service` produces: the HTTP response, the state
after the call, and the events handed to `broadcast` during the call. -/
structure CreateResult where
  resp : CreateResp
  state : AppState
  events : List Event
deriving DecidableEq

/-- Embedding of `create_service`.  External inputs: `r` the randomness
behind `uuid.uuid4()`, `now` the `now_iso()` timestamp, `data` the parsed
body, `ok` the per-subscriber send outcome. -/
def createService (r : Nat) (now : String) (data : ServiceInput)
    (ok : Client → Bool) (st : AppState) : CreateResult :=
  let missing := requiredMissing data
  if missing.isEmpty = false then
    { resp := .missingFields missing, state := st, events := [] }
  else
    let sid := uuid4String r
    let service : Service :=
      { id := sid
        type := (data.get "type").getD ""
        name := (data.get "name").getD ""
        address := (data.get "address").getD ""
        hours := (data.get "hours").getD ""
        phone := (data.get "phone").getD ""
        updatedAt := now }
    let b := broadcast ok st.wsClients
    { resp := .created service ("/api/v1/services/" ++ sid)
      state := { services := dictSet st.services sid service
                 wsClients := b.clients }
      events := [⟨"serviceCreated", service⟩] }

/-- Embedding of `list_services`: snapshot the values, then filter by exact
type equality only when the query parameter is truthy (`if t:`). -/
def listServices (st : RegState) (t : Option String) : List Service :=
  let items := st.map (fun p => p.2)
  if falsy t then items else items.filter (fun s => s.type == t.getD "")

/-- Embedding of the GraphQL resolver `Query.resolve_services`: snapshot
the values of the same shared dict, filter by exact type equality when the
argument is truthy (`if type:`). -/
def resolve_services (st : RegState) (type? : Option String) : List Service :=
  let items := st.map (fun p => p.2)
  if falsy type? then items
  else items.filter (fun s => s.type == type?.getD "")

/-- Response of `get_service`: 404, 304 with `ETag`/`Cache-Control` headers
and no body, or 200 with body and the same headers. -/
inductive GetResp where
  | notFound
  | notModified (etag : String) (cacheControl : String)
  | ok (s : Service) (etag : String) (cacheControl : String)
deriving DecidableEq, Repr

/-- Embedding of `get_service`.  `inm` is the `If-None-Match` header
(`none` when absent); `inm and inm == etag` is Python truthiness of the
header value conjoined with equality. -/
def getService (st : RegState) (sid : String) (inm : Option String) : GetResp :=
  match dictGet st sid with
  | none => .notFound
  | some service =>
    let etag := compute_etag service
    let cacheControl := "private, max-age=0, must-revalidate"
    if (!(falsy inm)) && (inm.getD "" == etag) then
      .notModified etag cacheControl
    else
      .ok service etag cacheControl

/-- Response of `put_service`: 404, 400 with missing fields, or 200. -/
inductive PutResp where
  | notFound
  | missingFields (fields : List String)
  | ok (s : Service)
deriving DecidableEq, Repr

/-- Embedding of `put_service`: the not-found check precedes body
validation; on success the five content fields are overwritten wholesale
(`data.get` defaults the optional ones to `""`), `updatedAt` is restamped,
and the record is stored back under the same key.  No broadcast. -/
def putService (st : RegState) (sid : String) (data : ServiceInput)
    (now : String) : PutResp × RegState × List Event :=
  match dictGet st sid with
  | none => (.notFound, st, [])
  | some service =>
    let missing := requiredMissing data
    if missing.isEmpty = false then (.missingFields missing, st, [])
    else
      let service' : Service :=
        { service with
          type := (data.get "type").getD ""
          name := (data.get "name").getD ""
          address := (data.get "address").getD ""
          hours := (data.get "hours").getD ""
          phone := (data.get "phone").getD ""
          updatedAt := now }
      (.ok service', dictSet st sid service', [])

/-- Response of `patch_service`: 404 or 200 with the merged record. -/
inductive PatchResp where
  | notFound
  | ok (s : Service)
deriving DecidableEq, Repr

/-- Embedding of `patch_service`: for each of the five mutable keys, in
order, overwrite the field exactly when the key is present in the body
(`if k in data` — presence, not truthiness), then restamp `updatedAt` and
store back under the same key.  No validation, no broadcast. -/
def patchService (st : RegState) (sid : String) (data : ServiceInput)
    (now : String) : PatchResp × RegState × List Event :=
  match dictGet st sid with
  | none => (.notFound, st, [])
  | some service =>
    let s1 := match data.type? with
      | some v => { service with type := v } | none => service
    let s2 := match data.name? with
      | some v => { s1 with name := v } | none => s1
    let s3 := match data.address? with
      | some v => { s2 with address := v } | none => s2
    let s4 := match data.hours? with
      | some v => { s3 with hours := v } | none => s3
    let s5 := match data.phone? with
      | some v => { s4 with phone := v } | none => s4
    let s6 := { s5 with updatedAt := now }
    (.ok s6, dictSet st sid s6, [])

/-- Response of `delete_service`: 404 or 204 with empty body. -/
inductive DeleteResp where
  | notFound
  | noContent
deriving DecidableEq, Repr

/-- Embedding of `delete_service`: unknown key yields 404 and no mutation;
otherwise the entry is deleted.  No broadcast. -/
def deleteService (st : RegState) (sid : String) :
    DeleteResp × RegState × List Event :=
  if hasKey st sid = false then (.notFound, st, [])
  else (.noContent, dictDel st sid, [])

/-! ## Reachable module states -/

/-- States reachable from the empty module state through the handlers and
the WebSocket endpoint joining (`ws_clients.add`) and leaving
(`ws_clients.discard`) a client. -/
inductive Reachable : AppState → Prop where
  | init : Reachable ⟨[], []⟩
  | create (r : Nat) (now : String) (data : ServiceInput) (ok : Client → Bool)
      {st : AppState} (h : Reachable st) :
      Reachable (createService r now data ok st).state
  | put (sid : String) (data : ServiceInput) (now : String) {st : AppState}
      (h : Reachable st) :
      Reachable ⟨(putService st.services sid data now).2.1, st.wsClients⟩
  | patch (sid : String) (data : ServiceInput) (now : String) {st : AppState}
      (h : Reachable st) :
      Reachable ⟨(patchService st.services sid data now).2.1, st.wsClients⟩
  | del (sid : String) {st : AppState} (h : Reachable st) :
      Reachable ⟨(deleteService st.services sid).2.1, st.wsClients⟩
  | subscribe (c : Client) {st : AppState} (h : Reachable st) :
      Reachable ⟨st.services, if st.wsClients.contains c then st.wsClients
                 else st.wsClients ++ [c]⟩
  | unsubscribe (c : Client) {st : AppState} (h : Reachable st) :
      Reachable ⟨st.services, st.wsClients.filter (fun w => !(w == c))⟩

/-! ## Helper lemmas -/

theorem hexOfBytes_length (l : List Nat) : (hexOfBytes l).length = 2 * l.length := by
  induction l with
  | nil => rfl
  | cons b bs ih => simp [hexOfBytes, ih]; omega

theorem md5Bytes_length (m : List Nat) : (md5Bytes m).length = 16 := by
  simp [md5Bytes, toLE4]

theorem compute_etag_length (s : Service) : (compute_etag s).length = 32 := by
  show (hexOfBytes (md5Bytes _)).length = 32
  rw [hexOfBytes_length, md5Bytes_length]

theorem compute_etag_ne_empty (s : Service) : compute_etag s ≠ "" := by
  intro h
  have := compute_etag_length s
  rw [h] at this
  simp [String.length] at this

theorem toHexFixed_length (d n : Nat) : (toHexFixed d n).length = d := by
  induction d generalizing n with
  | zero => rfl
  | succ d ih => simp [toHexFixed, ih]

theorem uuid4String_length (r : Nat) : (uuid4String r).length = 36 := by
  show (toHexFixed 8 _ ++ '-' :: (toHexFixed 4 _ ++ '-' :: (toHexFixed 4 _ ++
    '-' :: (toHexFixed 4 _ ++ '-' :: toHexFixed 12 _)))).length = 36
  simp [toHexFixed_length]

theorem uuid4String_ne_empty (r : Nat) : uuid4String r ≠ "" := by
  intro h
  have := uuid4String_length r
  rw [h] at this
  simp [String.length] at this

theorem dictGet_dictSet_self (st : RegState) (k : String) (v : Service) :
    dictGet (dictSet st k v) k = some v := by
  induction st with
  | nil => simp [dictSet, dictGet]
  | cons p rest ih =>
    by_cases h : p.1 = k
    · simp [dictSet, dictGet, h]
    · simp only [dictSet, dictGet, beq_iff_eq, h, if_false]
      exact ih

theorem dictGet_dictSet_ne (st : RegState) (k k' : String) (v : Service)
    (h : k' ≠ k) : dictGet (dictSet st k v) k' = dictGet st k' := by
  induction st with
  | nil => simp [dictSet, dictGet, Ne.symm h]
  | cons p rest ih =>
    by_cases hp : p.1 = k
    · simp [dictSet, dictGet, hp, Ne.symm h]
    · by_cases hp' : p.1 = k' <;>
        simp [dictSet, dictGet, hp, hp', ih, h, Ne.symm h]

theorem dictGet_dictDel_self (st : RegState) (k : String) :
    dictGet (dictDel st k) k = none := by
  induction st with
  | nil => rfl
  | cons p rest ih =>
    by_cases h : p.1 = k <;> simp [dictDel, dictGet, h, ih]

theorem dictGet_dictDel_ne (st : RegState) (k k' : String) (h : k' ≠ k) :
    dictGet (dictDel st k) k' = dictGet st k' := by
  induction st with
  | nil => rfl
  | cons p rest ih =>
    by_cases hp : p.1 = k
    · simp [dictDel, dictGet, hp, Ne.symm h, ih]
    · by_cases hp' : p.1 = k' <;>
        simp [dictDel, dictGet, hp, hp', ih, h, Ne.symm h]

theorem dictGet_mem {st : RegState} {k : String} {s : Service}
    (h : dictGet st k = some s) : (k, s) ∈ st := by
  induction st with
  | nil => simp [dictGet] at h
  | cons p rest ih =>
    by_cases hp : p.1 = k
    · simp only [dictGet, beq_iff_eq, hp, if_true, Option.some.injEq] at h
      have hpk : p = (k, s) := by cases p; simp_all
      exact List.mem_cons.mpr (Or.inl hpk.symm)
    · simp only [dictGet, beq_iff_eq, hp, if_false] at h
      exact List.mem_cons_of_mem _ (ih h)

theorem mem_dictSet {st : RegState} {k : String} {v : Service}
    {p : String × Service} (h : p ∈ dictSet st k v) : p ∈ st ∨ p = (k, v) := by
  induction st with
  | nil =>
    simp only [dictSet, List.mem_singleton] at h
    right
    exact h
  | cons q rest ih =>
    by_cases hq : q.1 = k
    · simp only [dictSet, beq_iff_eq, hq, if_true, List.mem_cons] at h
      rcases h with h | h
      · right; simp [h]
      · left; exact List.mem_cons_of_mem _ h
    · simp only [dictSet, beq_iff_eq, hq, if_false, List.mem_cons] at h
      rcases h with h | h
      · left; simp [h]
      · rcases ih h with h' | h'
        · left; exact List.mem_cons_of_mem _ h'
        · right; exact h'

theorem mem_dictDel {st : RegState} {k : String} {p : String × Service}
    (h : p ∈ dictDel st k) : p ∈ st := by
  induction st with
  | nil => simp [dictDel] at h
  | cons q rest ih =>
    by_cases hq : q.1 = k
    · simp only [dictDel, beq_iff_eq, hq, if_true] at h
      exact List.mem_cons_of_mem _ (ih h)
    · simp only [dictDel, beq_iff_eq, hq, if_false, List.mem_cons] at h
      rcases h with h | h
      · exact List.mem_cons.mpr (Or.inl h)
      · exact List.mem_cons_of_mem _ (ih h)

/-! ## Characterizations of the update operations -/

/-- The record `patch_service` stores on success: fields present in the
body overwrite the old ones, the rest are kept, `updatedAt` is restamped. -/
def patched (old : Service) (d : ServiceInput) (now : String) : Service :=
  { id := old.id
    type := d.type?.getD old.type
    name := d.name?.getD old.name
    address := d.address?.getD old.address
    hours := d.hours?.getD old.hours
    phone := d.phone?.getD old.phone
    updatedAt := now }

/-- The record `put_service` stores on success: the five content fields
come from the body (optional ones defaulted to `""`), the id is kept,
`updatedAt` is restamped. -/
def replaced (old : Service) (d : ServiceInput) (now : String) : Service :=
  { id := old.id
    type := d.type?.getD ""
    name := d.name?.getD ""
    address := d.address?.getD ""
    hours := d.hours?.getD ""
    phone := d.phone?.getD ""
    updatedAt := now }

theorem patchService_eq (st : RegState) (sid : String) (data : ServiceInput)
    (now : String) (old : Service) (hold : dictGet st sid = some old) :
    patchService st sid data now =
      (.ok (patched old data now), dictSet st sid (patched old data now), []) := by
  obtain ⟨t?, n?, a?, h?, p?⟩ := data
  cases t? <;> cases n? <;> cases a? <;> cases h? <;> cases p? <;>
    simp [patchService, patched, hold]

theorem putService_eq (st : RegState) (sid : String) (data : ServiceInput)
    (now : String) (old : Service) (hold : dictGet st sid = some old)
    (hvalid : requiredMissing data = []) :
    putService st sid data now =
      (.ok (replaced old data now), dictSet st sid (replaced old data now), []) := by
  simp only [putService, hold, hvalid, List.isEmpty_nil]
  obtain ⟨t?, n?, a?, h?, p?⟩ := data
  simp [replaced, ServiceInput.get]

/-! ## Concrete sample data for witness instantiations -/

def sampleService : Service :=
  ⟨"a", "clinic", "Hope Clinic", "1 Main St", "", "", "t1"⟩

def sampleState : RegState := [("a", sampleService)]

/-! ## Claim theorems -/

/-- C9: for every registry state and every type filter (including an absent
or empty one), the GraphQL `services(type)` resolver returns exactly the
same sequence of records, in the same insertion order, as the REST list
operation with that filter — both select by exact `type` equality over the
single shared registry. -/
theorem graphql_rest_read_equivalence (st : RegState) (t : Option String) :
    resolve_services st t = listServices st t := rfl

/-- C1: for every stored record, the fingerprint is a fixed-length
(32-character) hash of the record's canonical content serialization; a
request whose If-None-Match precondition equals that fingerprint gets the
no-body 304 carrying the ETag and the Cache-Control pair, and a request
with any other or absent precondition gets the full record (200) with the
same ETag and Cache-Control pair. -/
theorem conditional_get_spec (st : RegState) (sid : String) (s : Service)
    (inm : Option String) (h : dictGet st sid = some s) :
    (compute_etag s).length = 32 ∧
    (inm = some (compute_etag s) →
      getService st sid inm =
        .notModified (compute_etag s) "private, max-age=0, must-revalidate") ∧
    ((∀ v, inm = some v → v ≠ compute_etag s) →
      getService st sid inm =
        .ok s (compute_etag s) "private, max-age=0, must-revalidate") := by
  refine ⟨compute_etag_length s, ?_, ?_⟩
  · intro hin
    subst hin
    simp [getService, h, falsy, compute_etag_ne_empty s]
  · intro hin
    cases inm with
    | none => simp [getService, h, falsy]
    | some v =>
      have hv : v ≠ compute_etag s := hin v rfl
      simp [getService, h, falsy, hv]

/-- C1 witness: on a concrete one-record registry, presenting the record's
own fingerprint yields the 304 outcome. -/
theorem conditional_get_spec_witness :
    getService sampleState "a" (some (compute_etag sampleService)) =
      .notModified (compute_etag sampleService)
        "private, max-age=0, must-revalidate" :=
  (conditional_get_spec sampleState "a" sampleService
    (some (compute_etag sampleService)) rfl).2.1 rfl

/-- C6: deleting a stored id removes the record (subsequent get is 404),
a second delete of the same id is again 404 without changing state, every
other record is untouched, and a delete of an unknown id leaves the
registry unchanged. -/
theorem delete_spec :
    (∀ (st : RegState) (sid : String) (s : Service), dictGet st sid = some s →
      deleteService st sid = (.noContent, dictDel st sid, []) ∧
      (∀ inm, getService (deleteService st sid).2.1 sid inm = .notFound) ∧
      deleteService (deleteService st sid).2.1 sid =
        (.notFound, dictDel st sid, []) ∧
      (∀ k, k ≠ sid → dictGet (deleteService st sid).2.1 k = dictGet st k)) ∧
    (∀ (st : RegState) (sid : String), dictGet st sid = none →
      deleteService st sid = (.notFound, st, [])) := by
  constructor
  · intro st sid s h
    have hdel : deleteService st sid = (.noContent, dictDel st sid, []) := by
      simp [deleteService, hasKey, h]
    refine ⟨hdel, ?_, ?_, ?_⟩
    · intro inm
      rw [hdel]
      simp [getService, dictGet_dictDel_self]
    · rw [hdel]
      simp [deleteService, hasKey, dictGet_dictDel_self]
    · intro k hk
      rw [hdel]
      exact dictGet_dictDel_ne st sid k hk
  · intro st sid h
    simp [deleteService, hasKey, h]

/-- C6 witness: deleting the only record of a concrete registry, then
deleting again, yields 404 the second time with the state unchanged. -/
theorem delete_spec_witness :
    deleteService (deleteService sampleState "a").2.1 "a" =
      (.notFound, dictDel sampleState "a", []) :=
  (delete_spec.1 sampleState "a" sampleService rfl).2.2.1

/-- C2 counterexample: a record with all three required fields non-empty,
patched with the body that maps `type` to the empty string, comes back with
an empty `type` — the patch did introduce an empty required field. -/
theorem patch_empty_required_counterexample :
    sampleService.type ≠ "" ∧ sampleService.name ≠ "" ∧
    sampleService.address ≠ "" ∧
    (patchService sampleState "a" ⟨some "", none, none, none, none⟩ "t2").1 =
      .ok { sampleService with type := "", updatedAt := "t2" } ∧
    ({ sampleService with type := "", updatedAt := "t2" } : Service).type = "" := by
  refine ⟨?_, ?_, ?_, ?_, rfl⟩ <;> decide

/-- C2 (amended): a patch only overwrites supplied keys, so it cannot make
a required field absent; and provided every supplied required-field value
is non-empty, the patched record's `type`, `name`, `address` stay
non-empty.  (A supplied empty value, however, does make the field empty,
as the counterexample shows.) -/
theorem patch_preserves_required_nonempty (st : RegState) (sid : String)
    (data : ServiceInput) (now : String) (old s : Service)
    (hold : dictGet st sid = some old)
    (ht : old.type ≠ "") (hn : old.name ≠ "") (ha : old.address ≠ "")
    (ht' : ∀ v, data.type? = some v → v ≠ "")
    (hn' : ∀ v, data.name? = some v → v ≠ "")
    (ha' : ∀ v, data.address? = some v → v ≠ "")
    (hres : (patchService st sid data now).1 = .ok s) :
    s.type ≠ "" ∧ s.name ≠ "" ∧ s.address ≠ "" := by
  rw [patchService_eq st sid data now old hold] at hres
  have hs : s = patched old data now := by
    cases hres
    rfl
  subst hs
  refine ⟨?_, ?_, ?_⟩
  · cases hdt : data.type? with
    | none => simpa [patched, hdt] using ht
    | some v => simpa [patched, hdt] using ht' v hdt
  · cases hdn : data.name? with
    | none => simpa [patched, hdn] using hn
    | some v => simpa [patched, hdn] using hn' v hdn
  · cases hda : data.address? with
    | none => simpa [patched, hda] using ha
    | some v => simpa [patched, hda] using ha' v hda

/-- C2 witness: patching the sample record with a non-empty `type` leaves
all three required fields non-empty. -/
theorem patch_preserves_required_nonempty_witness :
    (patched sampleService ⟨some "shelter", none, none, none, none⟩ "t2").type ≠ "" ∧
    (patched sampleService ⟨some "shelter", none, none, none, none⟩ "t2").name ≠ "" ∧
    (patched sampleService ⟨some "shelter", none, none, none, none⟩ "t2").address ≠ "" :=
  patch_preserves_required_nonempty sampleState "a"
    ⟨some "shelter", none, none, none, none⟩ "t2" sampleService
    (patched sampleService ⟨some "shelter", none, none, none, none⟩ "t2") rfl
    (by decide) (by decide) (by decide)
    (fun v hv => by cases hv; decide)
    (fun v hv => by cases hv)
    (fun v hv => by cases hv)
    (by rw [patchService_eq sampleState "a" _ "t2" sampleService rfl])

/-- C5: patch overwrites exactly the fields present in the body (among the
five mutable keys) plus `updatedAt`, leaves every other field of the
record and every other record in the registry unchanged; in particular a
body supplying only `hours` changes only `hours` and `updatedAt`. -/
theorem patch_frame_property (st : RegState) (sid : String)
    (data : ServiceInput) (now : String) (old : Service)
    (hold : dictGet st sid = some old) :
    patchService st sid data now =
      (.ok (patched old data now), dictSet st sid (patched old data now), []) ∧
    (patched old data now).id = old.id ∧
    (patched old data now).type = data.type?.getD old.type ∧
    (patched old data now).name = data.name?.getD old.name ∧
    (patched old data now).address = data.address?.getD old.address ∧
    (patched old data now).hours = data.hours?.getD old.hours ∧
    (patched old data now).phone = data.phone?.getD old.phone ∧
    (patched old data now).updatedAt = now ∧
    (∀ k, k ≠ sid →
      dictGet (patchService st sid data now).2.1 k = dictGet st k) ∧
    (data.type? = none → data.name? = none → data.address? = none →
      data.phone? = none → ∀ v, data.hours? = some v →
      patched old data now = { old with hours := v, updatedAt := now }) := by
  have heq := patchService_eq st sid data now old hold
  refine ⟨heq, rfl, rfl, rfl, rfl, rfl, rfl, rfl, ?_, ?_⟩
  · intro k hk
    rw [heq]
    exact dictGet_dictSet_ne st sid k _ hk
  · intro h1 h2 h3 h4 v h5
    simp [patched, h1, h2, h3, h4, h5]

/-- C5 witness: patching the sample record with only `hours` present
yields exactly the record with `hours` and `updatedAt` changed, stored
under the same key. -/
theorem patch_frame_property_witness :
    patchService sampleState "a" ⟨none, none, none, some "9-5", none⟩ "t2" =
      (.ok { sampleService with hours := "9-5", updatedAt := "t2" },
        dictSet sampleState "a"
          { sampleService with hours := "9-5", updatedAt := "t2" },
        []) :=
  (patch_frame_property sampleState "a" ⟨none, none, none, some "9-5", none⟩
    "t2" sampleService rfl).1

/-- C3: an input with any required field absent or empty makes create fail
with exactly the list of offending required-field names (missing only
`name` gives exactly `["name"]`) while storing nothing and broadcasting
nothing; an input with all three present and non-empty succeeds, the
stored record has the non-empty generated id and `hours`/`phone` default
to `""` when omitted. -/
theorem create_validation_spec (r : Nat) (now : String) (data : ServiceInput)
    (ok : Client → Bool) (st : AppState) :
    (requiredMissing data ≠ [] →
      createService r now data ok st =
        ⟨.missingFields (requiredMissing data), st, []⟩) ∧
    (∀ k, k ∈ requiredMissing data ↔ k ∈ requiredKeys ∧ falsy (data.get k)) ∧
    (falsy data.type? = false → falsy data.name? = true →
      falsy data.address? = false → requiredMissing data = ["name"]) ∧
    (requiredMissing data = [] →
      ∃ s loc, (createService r now data ok st).resp = .created s loc ∧
        s.id = uuid4String r ∧ s.id ≠ "" ∧
        s.hours = data.hours?.getD "" ∧ s.phone = data.phone?.getD "" ∧
        (createService r now data ok st).state.services =
          dictSet st.services s.id s ∧
        dictGet (createService r now data ok st).state.services s.id = some s) := by
  refine ⟨?_, ?_, ?_, ?_⟩
  · intro h
    have : (requiredMissing data).isEmpty = false := by
      cases hm : requiredMissing data with
      | nil => exact absurd hm h
      | cons a l => rfl
    simp [createService, this]
  · intro k
    simp [requiredMissing, List.mem_filter]
  · intro h1 h2 h3
    simp [requiredMissing, requiredKeys, ServiceInput.get, List.filter,
      h1, h2, h3]
  · intro h
    have hne : (requiredMissing data).isEmpty = true := by rw [h]; rfl
    refine ⟨{ id := uuid4String r
              type := (data.get "type").getD ""
              name := (data.get "name").getD ""
              address := (data.get "address").getD ""
              hours := (data.get "hours").getD ""
              phone := (data.get "phone").getD ""
              updatedAt := now },
      "/api/v1/services/" ++ uuid4String r, ?_, rfl,
      uuid4String_ne_empty r, rfl, rfl, ?_, ?_⟩
    · simp [createService, hne]
    · simp [createService, hne]
    · simp only [createService, hne, Bool.true_eq_false, if_false]
      exact dictGet_dictSet_self st.services (uuid4String r) _

/-- C3 witness: creating with only `name` missing on a concrete empty
state fails with exactly `["name"]` and stores nothing. -/
theorem create_validation_spec_witness :
    createService 0 "t1" ⟨some "clinic", none, some "1 Main St", none, none⟩
        (fun _ => true) ⟨[], []⟩ =
      ⟨.missingFields ["name"], ⟨[], []⟩, []⟩ := by
  have := (create_validation_spec 0 "t1"
    ⟨some "clinic", none, some "1 Main St", none, none⟩
    (fun _ => true) ⟨[], []⟩).1 (by decide)
  simpa using this

/-- C4: replacing a stored record with a body passing the create
validation overwrites the five content fields wholesale (omitted optional
fields reset to `""`), keeps the id, restamps `updatedAt` to the mutation
time, and a subsequent get returns exactly the replaced content; replace
on an unknown id is 404 with the state unchanged, for every body. -/
theorem replace_spec :
    (∀ (st : RegState) (sid : String) (data : ServiceInput) (now : String)
      (old : Service), dictGet st sid = some old → requiredMissing data = [] →
      putService st sid data now =
        (.ok (replaced old data now), dictSet st sid (replaced old data now), []) ∧
      (replaced old data now).id = old.id ∧
      (replaced old data now).type = data.type?.getD "" ∧
      (replaced old data now).name = data.name?.getD "" ∧
      (replaced old data now).address = data.address?.getD "" ∧
      (replaced old data now).hours = data.hours?.getD "" ∧
      (replaced old data now).phone = data.phone?.getD "" ∧
      (replaced old data now).updatedAt = now ∧
      getService (putService st sid data now).2.1 sid none =
        .ok (replaced old data now) (compute_etag (replaced old data now))
          "private, max-age=0, must-revalidate") ∧
    (∀ (st : RegState) (sid : String) (data : ServiceInput) (now : String),
      dictGet st sid = none →
      putService st sid data now = (.notFound, st, [])) := by
  constructor
  · intro st sid data now old hold hvalid
    have heq := putService_eq st sid data now old hold hvalid
    refine ⟨heq, rfl, rfl, rfl, rfl, rfl, rfl, rfl, ?_⟩
    rw [heq]
    simp [getService, dictGet_dictSet_self, falsy]
  · intro st sid data now h
    simp [putService, h]

/-- C4 witness: replacing the sample record with a body omitting the
optional fields resets them to empty and restamps `updatedAt`. -/
theorem replace_spec_witness :
    putService sampleState "a"
        ⟨some "shelter", some "Safe Haven", some "2 Oak Ave", none, none⟩ "t2" =
      (.ok (replaced sampleService
          ⟨some "shelter", some "Safe Haven", some "2 Oak Ave", none, none⟩ "t2"),
        dictSet sampleState "a"
          (replaced sampleService
            ⟨some "shelter", some "Safe Haven", some "2 Oak Ave", none, none⟩ "t2"),
        []) :=
  (replace_spec.1 sampleState "a"
    ⟨some "shelter", some "Safe Haven", some "2 Oak Ave", none, none⟩
    "t2" sampleService rfl (by decide)).1

/-- C7: a publish attempts delivery to a snapshot of all currently
registered subscribers; every subscriber whose send succeeds receives the
event even when others fail; a failing subscriber is silently removed and
only successful subscribers remain registered; a subsequent publish does
not attempt delivery to the removed subscriber; and a delivery failure
never changes the response or event list of the mutating create call. -/
theorem broadcast_fault_isolation (ok ok2 : Client → Bool) (cs : List Client) :
    (broadcast ok cs).attempted = cs ∧
    (∀ c, c ∈ cs → ok c = true → c ∈ (broadcast ok cs).delivered) ∧
    (∀ c, ok c = false → c ∉ (broadcast ok cs).clients) ∧
    (∀ c, c ∈ (broadcast ok cs).clients → c ∈ cs ∧ ok c = true) ∧
    (∀ c, ok c = false →
      c ∉ (broadcast ok2 (broadcast ok cs).clients).attempted) ∧
    (∀ (r : Nat) (now : String) (data : ServiceInput) (st : AppState),
      (createService r now data ok st).resp =
        (createService r now data ok2 st).resp ∧
      (createService r now data ok st).events =
        (createService r now data ok2 st).events) := by
  have hmem : ∀ c, c ∈ (broadcast ok cs).clients → c ∈ cs ∧ ok c = true := by
    intro c hc
    simp only [broadcast, List.mem_filter, Bool.not_eq_true',
      List.contains_eq_any_beq, List.any_eq_false] at hc
    obtain ⟨hcs, hdead⟩ := hc
    refine ⟨hcs, ?_⟩
    cases hok : ok c
    · exfalso
      have := hdead c ⟨hcs, by simp [hok]⟩
      simp at this
    · rfl
  refine ⟨rfl, ?_, ?_, hmem, ?_, ?_⟩
  · intro c hc hok
    simp only [broadcast, List.mem_filter]
    exact ⟨hc, hok⟩
  · intro c hok hc
    exact absurd (hmem c hc).2 (by simp [hok])
  · intro c hok hc
    exact absurd (hmem c hc).2 (by simp [hok])
  · intro r now data st
    rcases Bool.eq_false_or_eq_true (requiredMissing data).isEmpty with hm | hm <;>
      exact ⟨by simp [createService, hm], by simp [createService, hm]⟩

/-- C7 witness: with subscribers 1, 2, 3 and delivery failing exactly for
subscriber 2, subscriber 3 is still delivered to. -/
theorem broadcast_fault_isolation_witness :
    3 ∈ (broadcast (fun c => !(c == 2)) [1, 2, 3]).delivered :=
  (broadcast_fault_isolation (fun c => !(c == 2)) (fun _ => true) [1, 2, 3]).2.1
    3 (by decide) (by decide)

/-- C8: a `serviceCreated` event carrying the stored record is handed to
broadcast exactly when a create succeeds; a failed create and every
replace, patch and delete hand no event to broadcast. -/
theorem creation_only_event_wiring :
    (∀ (r : Nat) (now : String) (data : ServiceInput) (ok : Client → Bool)
      (st : AppState) (s : Service) (loc : String),
      (createService r now data ok st).resp = .created s loc →
      (createService r now data ok st).events = [⟨"serviceCreated", s⟩] ∧
      dictGet (createService r now data ok st).state.services s.id = some s) ∧
    (∀ (r : Nat) (now : String) (data : ServiceInput) (ok : Client → Bool)
      (st : AppState) (fields : List String),
      (createService r now data ok st).resp = .missingFields fields →
      (createService r now data ok st).events = []) ∧
    (∀ (st : RegState) (sid : String) (data : ServiceInput) (now : String),
      (putService st sid data now).2.2 = []) ∧
    (∀ (st : RegState) (sid : String) (data : ServiceInput) (now : String),
      (patchService st sid data now).2.2 = []) ∧
    (∀ (st : RegState) (sid : String), (deleteService st sid).2.2 = []) := by
  refine ⟨?_, ?_, ?_, ?_, ?_⟩
  · intro r now data ok st s loc h
    by_cases hm : (requiredMissing data).isEmpty = false
    · simp [createService, hm] at h
    · have hm' : (requiredMissing data).isEmpty = true := by
        cases hmm : (requiredMissing data).isEmpty
        · exact absurd hmm hm
        · rfl
      simp only [createService, hm', Bool.true_eq_false, if_false,
        CreateResp.created.injEq] at h ⊢
      obtain ⟨hs, _⟩ := h
      subst hs
      exact ⟨rfl, dictGet_dictSet_self st.services (uuid4String r) _⟩
  · intro r now data ok st fields h
    by_cases hm : (requiredMissing data).isEmpty = false
    · simp [createService, hm]
    · have hm' : (requiredMissing data).isEmpty = true := by
        cases hmm : (requiredMissing data).isEmpty
        · exact absurd hmm hm
        · rfl
      simp [createService, hm'] at h
  · intro st sid data now
    cases hold : dictGet st sid with
    | none => simp [putService, hold]
    | some old =>
      rcases Bool.eq_false_or_eq_true (requiredMissing data).isEmpty with hm | hm <;>
        simp [putService, hold, hm]
  · intro st sid data now
    cases hold : dictGet st sid with
    | none => simp [patchService, hold]
    | some old => rw [patchService_eq st sid data now old hold]
  · intro st sid
    rcases Bool.eq_false_or_eq_true (hasKey st sid) with hk | hk <;>
      simp [deleteService, hk]

/-- C8 witness: a concrete successful create on the empty state hands
exactly the `serviceCreated` event for the stored record to broadcast. -/
theorem creation_only_event_wiring_witness :
    (createService 0 "t1" ⟨some "clinic", some "Hope Clinic", some "1 Main St",
        none, none⟩ (fun _ => true) ⟨[], []⟩).events =
      [⟨"serviceCreated",
        ⟨uuid4String 0, "clinic", "Hope Clinic", "1 Main St", "", "", "t1"⟩⟩] ∧
    dictGet (createService 0 "t1" ⟨some "clinic", some "Hope Clinic",
        some "1 Main St", none, none⟩ (fun _ => true) ⟨[], []⟩).state.services
        (⟨uuid4String 0, "clinic", "Hope Clinic", "1 Main St", "", "", "t1"⟩ :
          Service).id =
      some ⟨uuid4String 0, "clinic", "Hope Clinic", "1 Main St", "", "", "t1"⟩ :=
  creation_only_event_wiring.1 0 "t1"
    ⟨some "clinic", some "Hope Clinic", some "1 Main St", none, none⟩
    (fun _ => true) ⟨[], []⟩
    ⟨uuid4String 0, "clinic", "Hope Clinic", "1 Main St", "", "", "t1"⟩
    ("/api/v1/services/" ++ uuid4String 0) rfl

/-- C10: in every reachable module state each stored record's `id` equals
its storage key, and the records stored back by replace and patch keep the
id of the record they replace — the id is generated at creation and no
later operation modifies it. -/
theorem id_generation_and_immutability :
    (∀ st, Reachable st → ∀ p ∈ st.services, p.2.id = p.1) ∧
    (∀ (st : RegState) (sid : String) (data : ServiceInput) (now : String)
      (old : Service), dictGet st sid = some old →
      (patchService st sid data now).1 = .ok (patched old data now) ∧
      (patched old data now).id = old.id) ∧
    (∀ (st : RegState) (sid : String) (data : ServiceInput) (now : String)
      (old : Service), dictGet st sid = some old → requiredMissing data = [] →
      (putService st sid data now).1 = .ok (replaced old data now) ∧
      (replaced old data now).id = old.id) := by
  refine ⟨?_, ?_, ?_⟩
  · intro st h
    induction h with
    | init => intro p hp; simp at hp
    | create r now data ok h ih =>
      intro p hp
      by_cases hm : (requiredMissing data).isEmpty = false
      · simp only [createService, hm, if_true] at hp
        exact ih p hp
      · have hm' : (requiredMissing data).isEmpty = true := by
          cases hmm : (requiredMissing data).isEmpty
          · exact absurd hmm hm
          · rfl
        simp only [createService, hm', Bool.true_eq_false, if_false] at hp
        rcases mem_dictSet hp with h' | h'
        · exact ih p h'
        · subst h'; rfl
    | put sid data now h ih =>
      intro p hp
      simp only [putService] at hp
      rename_i st'
      cases hold : dictGet st'.services sid with
      | none => rw [hold] at hp; exact ih p hp
      | some old =>
        rw [hold] at hp
        by_cases hm : (requiredMissing data).isEmpty = false
        · simp only [hm, if_true] at hp
          exact ih p hp
        · have hm' : (requiredMissing data).isEmpty = true := by
            cases hmm : (requiredMissing data).isEmpty
            · exact absurd hmm hm
            · rfl
          simp only [hm', Bool.true_eq_false, if_false] at hp
          rcases mem_dictSet hp with h' | h'
          · exact ih p h'
          · subst h'
            show old.id = sid
            exact ih (sid, old) (dictGet_mem hold)
    | patch sid data now h ih =>
      intro p hp
      rename_i st'
      cases hold : dictGet st'.services sid with
      | none =>
        simp only [patchService, hold] at hp
        exact ih p hp
      | some old =>
        rw [patchService_eq st'.services sid data now old hold] at hp
        rcases mem_dictSet hp with h' | h'
        · exact ih p h'
        · subst h'
          show (patched old data now).id = sid
          show old.id = sid
          exact ih (sid, old) (dictGet_mem hold)
    | del sid h ih =>
      intro p hp
      simp only [deleteService] at hp
      rename_i st'
      by_cases hk : hasKey st'.services sid = false
      · simp only [hk, if_true] at hp
        exact ih p hp
      · simp only [hk, if_false] at hp
        exact ih p (mem_dictDel hp)
    | subscribe c h ih => exact ih
    | unsubscribe c h ih => exact ih
  · intro st sid data now old hold
    exact ⟨by rw [patchService_eq st sid data now old hold], rfl⟩
  · intro st sid data now old hold hvalid
    exact ⟨by rw [putService_eq st sid data now old hold hvalid], rfl⟩

/-- C10 witness: patching the sample record stores a record that keeps the
old id. -/
theorem id_generation_and_immutability_witness :
    (patchService sampleState "a" ⟨none, none, none, some "9-5", none⟩
        "t2").1 =
      .ok (patched sampleService ⟨none, none, none, some "9-5", none⟩ "t2") ∧
    (patched sampleService ⟨none, none, none, some "9-5", none⟩ "t2").id =
      sampleService.id :=
  id_generation_and_immutability.2.1 sampleState "a"
    ⟨none, none, none, some "9-5", none⟩ "t2" sampleService rfl

end CityServices
